import Mathlib

/-!
Verification of the structured-logging core
(`src/core/framework/observability/logging.py`).

The embedding models Python dicts as insertion-ordered association lists
(`Dict`), the `logging.LogRecord` data the formatters consume as
`LogRecord`, the two formatters (`StructuredFormatter.format`,
`HumanReadableFormatter.format`), the configurator (`configure_logging`)
over an explicit environment and root-logger state, and the
`ContextVar`-backed trace-context store both as a task-indexed map
(for fork/isolation semantics) and as an explicit heap of dict objects
(for copy-on-read semantics).
-/

set_option autoImplicit false

namespace HiveLogging

/-- A JSON-representable scalar value, as stored in context mappings and
event fields. -/
inductive JVal where
  | vStr (s : String)
  | vNum (n : Int)
  | vBool (b : Bool)
  deriving DecidableEq, Repr

/-- A Python dict with string keys: an insertion-ordered association list.
A real dict never holds a duplicate key; lemmas that depend on uniqueness
take a `Nodup` hypothesis on the key list. -/
abbrev Dict := List (String × JVal)

/-- Lookup `d[k]`, returning the first binding of `k` (the only one, for a
well-formed dict); `none` when the key is absent. -/
def dictGet : Dict → String → Option JVal
  | [], _ => none
  | p :: t, k => if p.1 = k then some p.2 else dictGet t k

/-- Assignment `d[k] = v`: replace the binding of `k` in place (Python dicts keep the
original insertion position on overwrite), or append a fresh binding when
`k` is absent. -/
def dictSet : Dict → String → JVal → Dict
  | [], k, v => [(k, v)]
  | p :: t, k, v => if p.1 = k then (k, v) :: t else p :: dictSet t k v

/-- Update `d.update(u)`: bind every key of `u` in `d`, in `u`'s insertion order,
overwriting same-named bindings (last writer wins per key). -/
def dictUpdate (d u : Dict) : Dict :=
  u.foldl (fun acc kv => dictSet acc kv.1 kv.2) d

theorem dictGet_dictSet_self (d : Dict) (k : String) (v : JVal) :
    dictGet (dictSet d k v) k = some v := by
  induction d with
  | nil => simp [dictSet, dictGet]
  | cons p t ih =>
    by_cases h : p.1 = k
    · simp [dictSet, dictGet, h]
    · simp [dictSet, dictGet, h, ih]

theorem dictGet_dictSet_ne (d : Dict) (k k' : String) (v : JVal) (h : k' ≠ k) :
    dictGet (dictSet d k' v) k = dictGet d k := by
  induction d with
  | nil => simp [dictSet, dictGet, h]
  | cons p t ih =>
    by_cases hp : p.1 = k'
    · simp [dictSet, dictGet, hp, h]
    · simp only [dictSet, if_neg hp]
      by_cases hk : p.1 = k
      · simp [dictGet, hk]
      · simp [dictGet, hk, ih]

theorem dictGet_eq_none_of_not_mem (d : Dict) (k : String)
    (h : k ∉ d.map Prod.fst) : dictGet d k = none := by
  induction d with
  | nil => rfl
  | cons p t ih =>
    simp only [List.map_cons, List.mem_cons] at h
    push_neg at h
    simp only [dictGet]
    rw [if_neg (fun hh => h.1 hh.symm), ih h.2]

theorem dictGet_isSome_of_mem (d : Dict) (k : String)
    (h : k ∈ d.map Prod.fst) : ∃ v, dictGet d k = some v := by
  induction d with
  | nil => simp at h
  | cons p t ih =>
    by_cases hp : p.1 = k
    · exact ⟨p.2, by simp [dictGet, hp]⟩
    · simp only [List.map_cons, List.mem_cons] at h
      rcases h with h | h
      · exact absurd h.symm hp
      · simpa [dictGet, hp] using ih h

theorem dictGet_dictUpdate_not_mem (d u : Dict) (k : String)
    (h : k ∉ u.map Prod.fst) : dictGet (dictUpdate d u) k = dictGet d k := by
  induction u generalizing d with
  | nil => rfl
  | cons q t ih =>
    simp only [List.map_cons, List.mem_cons] at h
    push_neg at h
    simp only [dictUpdate, List.foldl_cons]
    rw [show (List.foldl (fun acc kv => dictSet acc kv.1 kv.2)
      (dictSet d q.1 q.2) t) = dictUpdate (dictSet d q.1 q.2) t from rfl,
      ih _ h.2, dictGet_dictSet_ne _ _ _ _ (fun hh => h.1 hh.symm)]

theorem dictGet_dictUpdate (d u : Dict) (k : String)
    (hu : (u.map Prod.fst).Nodup) :
    dictGet (dictUpdate d u) k =
      match dictGet u k with
      | some v => some v
      | none => dictGet d k := by
  induction u generalizing d with
  | nil => rfl
  | cons q t ih =>
    simp only [List.map_cons, List.nodup_cons] at hu
    simp only [dictUpdate, List.foldl_cons]
    rw [show (List.foldl (fun acc kv => dictSet acc kv.1 kv.2)
      (dictSet d q.1 q.2) t) = dictUpdate (dictSet d q.1 q.2) t from rfl,
      ih _ hu.2]
    by_cases hq : q.1 = k
    · subst hq
      rw [dictGet_eq_none_of_not_mem t q.1 hu.1]
      simp [dictGet, dictGet_dictSet_self]
    · rw [dictGet_dictSet_ne _ _ _ _ hq]
      simp [dictGet, hq]

/-- ASCII-wise `str.lower()` (the only case mapping the modelled strings
need). -/
def strLower (s : String) : String := String.mk (s.data.map Char.toLower)

/-- ASCII-wise `str.upper()`. -/
def strUpper (s : String) : String := String.mk (s.data.map Char.toUpper)

/-- The per-event data the formatters consume from a `logging.LogRecord`:
`levelname`, `name` (the logger name), the already-rendered message
(`record.getMessage()`), the attributes attached through `extra` (read
back with `getattr(record, key, None)`, so a key maps to its value and an
absent key reads as `None`), and the rendered exception text when
`record.exc_info` is set. -/
structure LogRecord where
  levelname : String
  name : String
  message : String
  extra : Dict
  excText : Option String
  deriving DecidableEq, Repr

/-- The custom-field names `StructuredFormatter.format` reads off the
record (source lines 61-79), in source order. -/
def recognizedFieldKeys : List String :=
  ["event", "latency_ms", "tokens_used", "node_id", "model"]

/-- One `x = getattr(record, name, None); if x is not None: log_entry[name] = x`
step of `StructuredFormatter.format`. -/
def applyField (d : Dict) (extra : Dict) (fieldName : String) : Dict :=
  match dictGet extra fieldName with
  | some v => dictSet d fieldName v
  | none => d

/-- The `if record.exc_info: log_entry["exception"] = ...` step of
`StructuredFormatter.format` (source lines 82-83). -/
def applyExc (d : Dict) (exc : Option String) : Dict :=
  match exc with
  | some t => dictSet d "exception" (JVal.vStr t)
  | none => d

/-- Embedding of `StructuredFormatter.format` (source lines 44-85): builds the base
entry (timestamp, lowercased level, logger, message), merges the current
context snapshot over it with `log_entry.update(context)`, then writes
each recognized custom field that is present, then the exception text.
`now` is the ISO-8601 rendering of `datetime.now(UTC)` taken at format
time. The value returned is the JSON object handed to `json.dumps`; its
keys are unique whenever `context`'s are, so the emitted line parses back
to exactly this mapping. -/
def StructuredFormatter.format (now : String) (context : Dict) (r : LogRecord) : Dict :=
  let base : Dict :=
    [("timestamp", JVal.vStr now),
     ("level", JVal.vStr (strLower r.levelname)),
     ("logger", JVal.vStr r.name),
     ("message", JVal.vStr r.message)]
  let e0 := dictUpdate base context
  let e1 := applyField e0 r.extra "event"
  let e2 := applyField e1 r.extra "latency_ms"
  let e3 := applyField e2 r.extra "tokens_used"
  let e4 := applyField e3 r.extra "node_id"
  let e5 := applyField e4 r.extra "model"
  applyExc e5 r.excText

theorem dictGet_applyField_self (d ex : Dict) (n : String) (v : JVal)
    (h : dictGet ex n = some v) : dictGet (applyField d ex n) n = some v := by
  simp [applyField, h, dictGet_dictSet_self]

theorem dictGet_applyField_ne (d ex : Dict) (n k : String) (h : n ≠ k) :
    dictGet (applyField d ex n) k = dictGet d k := by
  unfold applyField
  cases hx : dictGet ex n
  · rfl
  · exact dictGet_dictSet_ne _ _ _ _ h

theorem dictGet_applyExc_ne (d : Dict) (e : Option String) (k : String)
    (h : ("exception" : String) ≠ k) : dictGet (applyExc d e) k = dictGet d k := by
  cases e
  · rfl
  · exact dictGet_dictSet_ne _ _ _ _ h

/-- A recognized field key present among the record's `extra` attributes
reads back from the rendered JSON object with the record's value,
whatever the context says. -/
theorem sf_recognized_field_get (now : String) (C : Dict) (r : LogRecord) (k : String)
    (hk : k ∈ recognizedFieldKeys) (hmem : k ∈ r.extra.map Prod.fst) :
    dictGet (StructuredFormatter.format now C r) k = dictGet r.extra k := by
  obtain ⟨v, hv⟩ := dictGet_isSome_of_mem _ _ hmem
  rw [hv]
  simp only [recognizedFieldKeys, List.mem_cons, List.not_mem_nil, or_false] at hk
  simp only [StructuredFormatter.format]
  rcases hk with h | h | h | h | h <;> subst h <;>
    rw [dictGet_applyExc_ne _ _ _ (by decide)]
  · rw [dictGet_applyField_ne _ _ _ _ (by decide),
      dictGet_applyField_ne _ _ _ _ (by decide),
      dictGet_applyField_ne _ _ _ _ (by decide),
      dictGet_applyField_ne _ _ _ _ (by decide),
      dictGet_applyField_self _ _ _ _ hv]
  · rw [dictGet_applyField_ne _ _ _ _ (by decide),
      dictGet_applyField_ne _ _ _ _ (by decide),
      dictGet_applyField_ne _ _ _ _ (by decide),
      dictGet_applyField_self _ _ _ _ hv]
  · rw [dictGet_applyField_ne _ _ _ _ (by decide),
      dictGet_applyField_ne _ _ _ _ (by decide),
      dictGet_applyField_self _ _ _ _ hv]
  · rw [dictGet_applyField_ne _ _ _ _ (by decide),
      dictGet_applyField_self _ _ _ _ hv]
  · rw [dictGet_applyField_self _ _ _ _ hv]

/-- What a reserved top-level key reads back as: the context's entry when
the context binds the key, else the event-sourced base value. -/
theorem sf_reserved_get (now : String) (C : Dict) (r : LogRecord) (k : String) (bval : JVal)
    (hC : (C.map Prod.fst).Nodup)
    (h1 : k ≠ "event") (h2 : k ≠ "latency_ms") (h3 : k ≠ "tokens_used")
    (h4 : k ≠ "node_id") (h5 : k ≠ "model") (h6 : k ≠ "exception")
    (hbase : dictGet
      [("timestamp", JVal.vStr now),
       ("level", JVal.vStr (strLower r.levelname)),
       ("logger", JVal.vStr r.name),
       ("message", JVal.vStr r.message)] k = some bval) :
    dictGet (StructuredFormatter.format now C r) k = some ((dictGet C k).getD bval) := by
  simp only [StructuredFormatter.format]
  rw [dictGet_applyExc_ne _ _ _ (Ne.symm h6),
    dictGet_applyField_ne _ _ _ _ (Ne.symm h5),
    dictGet_applyField_ne _ _ _ _ (Ne.symm h4),
    dictGet_applyField_ne _ _ _ _ (Ne.symm h3),
    dictGet_applyField_ne _ _ _ _ (Ne.symm h2),
    dictGet_applyField_ne _ _ _ _ (Ne.symm h1),
    dictGet_dictUpdate _ _ _ hC]
  split
  · rename_i v hv
    rw [hv]
    rfl
  · rename_i hv
    rw [hbase, hv]
    rfl

/-- Claim C1: for every context snapshot `C` and event fields drawn from
the recognized keys, any key `k` shared between context and fields reads
back from the rendered JSON object as the field's value, not the
context's. -/
theorem claim1_merge_precedence (now : String) (C : Dict) (r : LogRecord) (k : String)
    (hshared : k ∈ C.map Prod.fst)
    (hfields : k ∈ r.extra.map Prod.fst)
    (hrec : ∀ k' ∈ r.extra.map Prod.fst, k' ∈ recognizedFieldKeys) :
    dictGet (StructuredFormatter.format now C r) k = dictGet r.extra k ∧
    (dictGet C k ≠ dictGet r.extra k →
      dictGet (StructuredFormatter.format now C r) k ≠ dictGet C k) := by
  have h1 := sf_recognized_field_get now C r k (hrec k hfields) hfields
  refine ⟨h1, fun hne => ?_⟩
  rw [h1]
  exact fun hh => hne hh.symm

/-- Witness for C1 at a concrete input: context and fields both bind
`node_id`, and the rendered object carries the field's value. -/
theorem claim1_merge_precedence_witness :
    ("node_id" : String) ∈ ([("node_id", JVal.vStr "inherited")] : Dict).map Prod.fst ∧
    ("node_id" : String) ∈ ([("node_id", JVal.vStr "n-explicit")] : Dict).map Prod.fst ∧
    (∀ k' ∈ ([("node_id", JVal.vStr "n-explicit")] : Dict).map Prod.fst,
      k' ∈ recognizedFieldKeys) ∧
    dictGet
      (StructuredFormatter.format "2026-01-01T00:00:00+00:00"
        [("node_id", JVal.vStr "inherited")]
        ⟨"INFO", "app", "msg", [("node_id", JVal.vStr "n-explicit")], none⟩)
      "node_id" = dictGet [("node_id", JVal.vStr "n-explicit")] "node_id" :=
  ⟨by decide, by decide, by simp [recognizedFieldKeys],
    (claim1_merge_precedence "2026-01-01T00:00:00+00:00"
      [("node_id", JVal.vStr "inherited")]
      ⟨"INFO", "app", "msg", [("node_id", JVal.vStr "n-explicit")], none⟩
      "node_id" (by decide) (by decide) (by simp [recognizedFieldKeys])).1⟩

/-- Claim C2 counterexample: a context entry named `message` replaces the
event's own message in the rendered JSON object, because
`log_entry.update(context)` runs after the base entry is built. -/
theorem claim2_reserved_counterexample :
    dictGet
      (StructuredFormatter.format "2026-01-01T00:00:00+00:00"
        [("message", JVal.vStr "ctx-message")]
        ⟨"INFO", "app", "real-message", [], none⟩)
      "message" = some (JVal.vStr "ctx-message") ∧
    some (JVal.vStr "ctx-message") ≠ some (JVal.vStr "real-message") := by
  decide

/-- Claim C2 (amended): each reserved key (`timestamp`, `level`, `logger`,
`message`) reads back as the context's same-named entry when the context
binds it, and as the event-sourced value otherwise; event fields can
never replace a reserved key (the five recognized field names are
disjoint from the reserved names). -/
theorem claim2_reserved_keys_amended (now : String) (C : Dict) (r : LogRecord)
    (hC : (C.map Prod.fst).Nodup) :
    dictGet (StructuredFormatter.format now C r) "timestamp"
      = some ((dictGet C "timestamp").getD (JVal.vStr now)) ∧
    dictGet (StructuredFormatter.format now C r) "level"
      = some ((dictGet C "level").getD (JVal.vStr (strLower r.levelname))) ∧
    dictGet (StructuredFormatter.format now C r) "logger"
      = some ((dictGet C "logger").getD (JVal.vStr r.name)) ∧
    dictGet (StructuredFormatter.format now C r) "message"
      = some ((dictGet C "message").getD (JVal.vStr r.message)) := by
  refine ⟨?_, ?_, ?_, ?_⟩ <;>
    exact sf_reserved_get now C r _ _ hC (by decide) (by decide) (by decide)
      (by decide) (by decide) (by decide) (by simp [dictGet])

/-- Witness for the amended C2 at a concrete input. -/
theorem claim2_reserved_keys_amended_witness :
    (([("message", JVal.vStr "ctx-message")] : Dict).map Prod.fst).Nodup ∧
    dictGet
      (StructuredFormatter.format "2026-01-01T00:00:00+00:00"
        [("message", JVal.vStr "ctx-message")]
        ⟨"INFO", "app", "real-message", [], none⟩)
      "message"
      = some ((dictGet [("message", JVal.vStr "ctx-message")] "message").getD
          (JVal.vStr "real-message")) :=
  ⟨by decide,
    (claim2_reserved_keys_amended "2026-01-01T00:00:00+00:00"
      [("message", JVal.vStr "ctx-message")]
      ⟨"INFO", "app", "real-message", [], none⟩ (by decide)).2.2.2⟩

/-- Claim C4: rendering an event with fields `event = "start"`,
`node_id = "n1"` under context `trace_id = "abcdefgh12"` yields a JSON
object with exactly the four reserved keys plus `trace_id`, `event`,
`node_id`, carrying those values; the absent optional fields are simply
omitted and nothing fails. -/
theorem claim4_json_round_trip (now levelname lname msg : String) :
    StructuredFormatter.format now
      [("trace_id", JVal.vStr "abcdefgh12")]
      ⟨levelname, lname, msg,
        [("event", JVal.vStr "start"), ("node_id", JVal.vStr "n1")], none⟩ =
    [("timestamp", JVal.vStr now),
     ("level", JVal.vStr (strLower levelname)),
     ("logger", JVal.vStr lname),
     ("message", JVal.vStr msg),
     ("trace_id", JVal.vStr "abcdefgh12"),
     ("event", JVal.vStr "start"),
     ("node_id", JVal.vStr "n1")] := by
  simp [StructuredFormatter.format, dictUpdate, dictSet, dictGet, applyField, applyExc]

/-- Claim C6 counterexample: an event field with the unrecognized key
`custom_key` is dropped by the JSON formatter, not passed through. -/
theorem claim6_passthrough_counterexample :
    dictGet ([("custom_key", JVal.vStr "custom_value")] : Dict) "custom_key"
      = some (JVal.vStr "custom_value") ∧
    dictGet
      (StructuredFormatter.format "2026-01-01T00:00:00+00:00" []
        ⟨"INFO", "app", "msg", [("custom_key", JVal.vStr "custom_value")], none⟩)
      "custom_key" = none := by
  decide

/-- Claim C6 (amended): the JSON formatter reads only the five recognized
field names off the record, so an event field key outside that set (and
outside the reserved keys, the context's keys, and `exception`) never
appears in the rendered JSON object at all. -/
theorem claim6_unrecognized_dropped_amended (now : String) (C : Dict) (r : LogRecord)
    (k : String)
    (hctx : k ∉ C.map Prod.fst)
    (hrec : k ∉ recognizedFieldKeys)
    (ht : k ≠ "timestamp") (hl : k ≠ "level") (hg : k ≠ "logger") (hm : k ≠ "message")
    (hx : k ≠ "exception") :
    dictGet (StructuredFormatter.format now C r) k = none := by
  simp only [recognizedFieldKeys, List.mem_cons, List.not_mem_nil, or_false] at hrec
  push_neg at hrec
  obtain ⟨e1, e2, e3, e4, e5⟩ := hrec
  simp only [StructuredFormatter.format]
  rw [dictGet_applyExc_ne _ _ _ (Ne.symm hx),
    dictGet_applyField_ne _ _ _ _ (Ne.symm e5),
    dictGet_applyField_ne _ _ _ _ (Ne.symm e4),
    dictGet_applyField_ne _ _ _ _ (Ne.symm e3),
    dictGet_applyField_ne _ _ _ _ (Ne.symm e2),
    dictGet_applyField_ne _ _ _ _ (Ne.symm e1),
    dictGet_dictUpdate_not_mem _ _ _ hctx]
  simp [dictGet, Ne.symm ht, Ne.symm hl, Ne.symm hg, Ne.symm hm]

/-- Witness for the amended C6 at a concrete input. -/
theorem claim6_unrecognized_dropped_amended_witness :
    ("custom_key" : String) ∉ ([] : Dict).map Prod.fst ∧
    ("custom_key" : String) ∉ recognizedFieldKeys ∧
    ("custom_key" : String) ≠ "timestamp" ∧
    ("custom_key" : String) ≠ "level" ∧
    ("custom_key" : String) ≠ "logger" ∧
    ("custom_key" : String) ≠ "message" ∧
    ("custom_key" : String) ≠ "exception" ∧
    dictGet
      (StructuredFormatter.format "2026-01-01T00:00:00+00:00" []
        ⟨"INFO", "app", "msg", [("custom_key", JVal.vStr "custom_value")], none⟩)
      "custom_key" = none :=
  ⟨by decide, by decide, by decide, by decide, by decide, by decide, by decide,
    claim6_unrecognized_dropped_amended "2026-01-01T00:00:00+00:00" []
      ⟨"INFO", "app", "msg", [("custom_key", JVal.vStr "custom_value")], none⟩
      "custom_key" (by decide) (by decide) (by decide) (by decide) (by decide)
      (by decide) (by decide)⟩

/-- A context snapshot as the human formatter consumes it: string keys to
string values (`HumanReadableFormatter.format` slices the identifier
values with `[:8]`/`[-8:]`, so the values reaching it are strings). -/
abbrev SDict := List (String × String)

/-- First binding of `k` in the snapshot; `none` when the key is absent. -/
def sFind? : SDict → String → Option String
  | [], _ => none
  | p :: t, k => if p.1 = k then some p.2 else sFind? t k

/-- Python `context.get(k, "")`. -/
def sGet (c : SDict) (k : String) : String := (sFind? c k).getD ""

/-- Python `s[-n:]`: the last `n` characters (the whole string when it has
fewer than `n`). -/
def lastChars (n : Nat) (s : String) : String := s.drop (s.length - n)

/-- The `prefix_parts` list built by `HumanReadableFormatter.format`
(source lines 113-120): one piece for each truthy (non-empty) identifier,
in the fixed order trace, exec, agent, with `trace_id[:8]` and
`execution_id[-8:]`; `agent_id` unabridged. -/
def bracketParts (c : SDict) : List String :=
  (if sGet c "trace_id" ≠ "" then ["trace:" ++ (sGet c "trace_id").take 8] else []) ++
  (if sGet c "execution_id" ≠ "" then ["exec:" ++ lastChars 8 (sGet c "execution_id")] else []) ++
  (if sGet c "agent_id" ≠ "" then ["agent:" ++ sGet c "agent_id"] else [])

/-- The `context_prefix` value of source line 122: the bracketed context
segment joined by `" | "`, followed by its separating space; the empty
string when no identifier is present (no empty brackets). -/
def contextBracket (c : SDict) : String :=
  if bracketParts c = [] then ""
  else "[" ++ String.intercalate " | " (bracketParts c) ++ "] "

/-- The `COLORS` table of `HumanReadableFormatter` (source lines 96-102). -/
def levelColors : List (String × String) :=
  [("DEBUG", "\x1b[36m"), ("INFO", "\x1b[32m"), ("WARNING", "\x1b[33m"),
   ("ERROR", "\x1b[31m"), ("CRITICAL", "\x1b[35m")]

/-- Lookup `COLORS.get(record.levelname, "")`. -/
def colorFor (levelname : String) : String :=
  match levelColors.find? (fun p => p.1 == levelname) with
  | some p => p.2
  | none => ""

/-- The `RESET` escape (source line 103). -/
def resetCode : String := "\x1b[0m"

/-- Python `f-string` left alignment to width 8 (`:<8`): pad with spaces,
never truncate. -/
def padTo8 (s : String) : String :=
  s ++ String.mk (List.replicate (8 - s.length) ' ')

/-- Python `str(x)` for a field value rendered into the human line. -/
def jvalStr : JVal → String
  | .vStr s => s
  | .vNum n => toString n
  | .vBool b => if b then "True" else "False"

/-- Embedding of `HumanReadableFormatter.format` (source lines 105-138): color by
level, level name padded to 8, bracketed context identifiers, message,
and a trailing ` [event]` when the record carries an `event` field.
Failure text is intentionally not rendered. -/
def HumanReadableFormatter.format (context : SDict) (r : LogRecord) : String :=
  let color := colorFor r.levelname
  let level := padTo8 r.levelname
  let ev := match dictGet r.extra "event" with
    | some v => " [" ++ jvalStr v ++ "]"
    | none => ""
  color ++ "[" ++ level ++ "]" ++ resetCode ++ " " ++ contextBracket context
    ++ r.message ++ ev

/-- One bracket segment as claim C5 words it: a `label`-tagged, possibly
truncated piece for a key that is present with a non-empty value, nothing
otherwise. -/
def specSeg (c : SDict) (key label : String) (trunc : String → String) : Option String :=
  match sFind? c key with
  | some v => if v = "" then none else some (label ++ trunc v)
  | none => none

/-- The segment list as claim C5 words it: trace (first 8), exec (last
8), agent (unabridged), in that fixed order, keeping only the keys that
are present and non-empty. -/
def specBracketSegs (c : SDict) : List String :=
  (specSeg c "trace_id" "trace:" (fun s => s.take 8)).toList ++
  (specSeg c "execution_id" "exec:" (lastChars 8)).toList ++
  (specSeg c "agent_id" "agent:" (fun s => s)).toList

/-- The bracketed context segment as claim C5 words it: nothing at all
when no segment qualifies, else the segments joined by `" | "` in
brackets (with the formatter's separating space). -/
def specBracket (c : SDict) : String :=
  if specBracketSegs c = [] then ""
  else "[" ++ String.intercalate " | " (specBracketSegs c) ++ "] "

theorem seg_toList (c : SDict) (key label : String) (trunc : String → String) :
    (if sGet c key ≠ "" then [label ++ trunc (sGet c key)] else [])
      = (specSeg c key label trunc).toList := by
  cases h : sFind? c key
  · simp [sGet, specSeg, h]
  · rename_i v
    by_cases hv : v = ""
    · simp [sGet, specSeg, h, hv]
    · simp [sGet, specSeg, h, hv]

theorem bracketParts_eq_specSegs (c : SDict) : bracketParts c = specBracketSegs c := by
  unfold bracketParts specBracketSegs
  rw [seg_toList c "trace_id" "trace:" (fun s => s.take 8),
    seg_toList c "execution_id" "exec:" (lastChars 8),
    seg_toList c "agent_id" "agent:" (fun s => s)]

/-- Claim C5: the human formatter's bracketed context segment consists of
exactly the present-and-non-empty identifiers among `trace_id` (first 8
characters), `execution_id` (last 8 characters) and `agent_id`
(unabridged), in that fixed order joined by `" | "`, and is absent
entirely when none qualifies; in particular the claim's concrete context
renders `[trace:01234567 | exec:00000001]` followed by the separating
space. -/
theorem claim5_human_bracket :
    (∀ c : SDict, contextBracket c = specBracket c) ∧
    contextBracket [("trace_id", "0123456789ab"), ("execution_id", "run_00000001")]
      = "[trace:01234567 | exec:00000001] " := by
  constructor
  · intro c
    unfold contextBracket specBracket
    rw [bracketParts_eq_specSegs]
  · decide

/-- The `trace_context` `ContextVar` across tasks: each independently
schedulable task (identified by a `Nat`) has its own binding, `none`
being the variable's declared default (source lines 29-31). -/
abbrev TaskMap := Nat → Option Dict

/-- Rebinding the variable in one task's context: only that task's
binding changes (`ContextVar.set` is context-local). -/
def updTask (w : TaskMap) (t : Nat) (v : Option Dict) : TaskMap :=
  fun t' => if t' = t then v else w t'

/-- Task spawn under `ContextVar` semantics (the host primitive the source
relies on, source lines 27-31): the child starts with a copy of the
parent's binding as of spawn time. -/
def forkTask (w : TaskMap) (parent child : Nat) : TaskMap :=
  updTask w child (w parent)

/-- Embedding of `set_trace_context(**kwargs)` (source lines 198-226) run by task `t`:
`current = trace_context.get() or {}`, then
`trace_context.set({**current, **kwargs})` — a freshly built merged dict
is bound in `t`'s own context only. -/
def set_trace_context (w : TaskMap) (t : Nat) (kwargs : Dict) : TaskMap :=
  updTask w t (some (dictUpdate ((w t).getD []) kwargs))

/-- Embedding of `get_trace_context()` (source lines 229-238) run by task `t`: a copy
of the current mapping, the empty dict when unset. -/
def get_trace_context (w : TaskMap) (t : Nat) : Dict := (w t).getD []

/-- Embedding of `clear_trace_context()` (source lines 241-253) run by task `t`. -/
def clear_trace_context (w : TaskMap) (t : Nat) : TaskMap := updTask w t none

/-- The parent merge of claim C3's example. -/
def traceT1 : Dict := [("trace_id", JVal.vStr "t1")]

theorem updTask_self (w : TaskMap) (t : Nat) (v : Option Dict) :
    updTask w t v t = v := by simp [updTask]

theorem updTask_ne (w : TaskMap) (t : Nat) (v : Option Dict) (t' : Nat) (h : t' ≠ t) :
    updTask w t v t' = w t' := by simp [updTask, h]

/-- Claim C3: a child forked while the parent's store is active sees the
parent's mapping as of spawn time (after the parent merges
`trace_id = "t1"`, a forked child observes `"t1"`), and a merge performed
in the parent after the fork, or in the child after the fork, is
invisible to the other side and to a sibling task. `w` is the initial
task-to-binding state; `p`, `c`, `s` are the parent, the child and a
sibling also forked from the parent. -/
theorem claim3_fork_isolation (w : TaskMap) (p c s : Nat) (u1 u2 : Dict)
    (hpc : p ≠ c) (hps : p ≠ s) (hcs : c ≠ s) :
    get_trace_context (forkTask w p c) c = get_trace_context w p ∧
    dictGet
      (get_trace_context
        (forkTask (forkTask (set_trace_context w p traceT1) p c) p s) c)
      "trace_id" = some (JVal.vStr "t1") ∧
    get_trace_context
        (set_trace_context
          (forkTask (forkTask (set_trace_context w p traceT1) p c) p s) p u1) c
      = get_trace_context
          (forkTask (forkTask (set_trace_context w p traceT1) p c) p s) c ∧
    get_trace_context
        (set_trace_context
          (forkTask (forkTask (set_trace_context w p traceT1) p c) p s) c u2) p
      = get_trace_context
          (forkTask (forkTask (set_trace_context w p traceT1) p c) p s) p ∧
    get_trace_context
        (set_trace_context
          (forkTask (forkTask (set_trace_context w p traceT1) p c) p s) c u2) s
      = get_trace_context
          (forkTask (forkTask (set_trace_context w p traceT1) p c) p s) s := by
  have hcp := Ne.symm hpc
  have hsp := Ne.symm hps
  have hsc := Ne.symm hcs
  refine ⟨?_, ?_, ?_, ?_, ?_⟩
  · simp [get_trace_context, forkTask, updTask_self]
  · rw [get_trace_context, forkTask, forkTask,
      updTask_ne _ _ _ _ hcs, updTask_self,
      set_trace_context, updTask_self]
    simp [traceT1, dictUpdate, dictGet_dictSet_self]
  · rw [get_trace_context, get_trace_context, set_trace_context,
      updTask_ne _ _ _ _ hcp]
  · rw [get_trace_context, get_trace_context, set_trace_context,
      updTask_ne _ _ _ _ hpc]
  · rw [get_trace_context, get_trace_context, set_trace_context,
      updTask_ne _ _ _ _ hsc]

/-- Witness for C3 with parent task 0, child task 1, sibling task 2,
starting from the unset state. -/
theorem claim3_fork_isolation_witness :
    (0 : Nat) ≠ 1 ∧ (0 : Nat) ≠ 2 ∧ (1 : Nat) ≠ 2 ∧
    dictGet
      (get_trace_context
        (forkTask
          (forkTask (set_trace_context (fun _ => none) 0 traceT1) 0 1) 0 2) 1)
      "trace_id" = some (JVal.vStr "t1") :=
  ⟨by decide, by decide, by decide,
    (claim3_fork_isolation (fun _ => none) 0 1 2
      [("trace_id", JVal.vStr "t2")] [("agent_id", JVal.vStr "a")]
      (by decide) (by decide) (by decide)).2.1⟩

/-- The store of one task with dict objects made explicit: `heap` holds
every dict object ever allocated (its index is the object's address) and
`cur` is the `trace_context` binding — the address of the current dict,
or `none` when unset. This makes copy-on-read observable: an operation
that built a fresh dict appends to the heap; a cell that an earlier call
returned is never written again. -/
structure Store where
  heap : List Dict
  cur : Option Nat
  deriving DecidableEq, Repr

/-- The dict object at address `a`. -/
def derefD (s : Store) (a : Nat) : Dict := s.heap.getD a []

/-- Value of `trace_context.get() or {}`: the current mapping by value. -/
def currentDict (s : Store) : Dict :=
  match s.cur with
  | some a => derefD s a
  | none => []

/-- Embedding of `get_trace_context()` over the explicit heap (source lines 229-238):
`context = trace_context.get() or {}; return context.copy()` — allocates
a fresh copy of the current mapping and returns its address; total, and
the binding itself is untouched. -/
def storeGet (s : Store) : Store × Nat :=
  (⟨s.heap ++ [currentDict s], s.cur⟩, s.heap.length)

/-- Embedding of `set_trace_context(**kwargs)` over the explicit heap (source lines
198-226): `{**current, **kwargs}` builds a new dict — the merge
allocates and rebinds, it never writes an existing cell. -/
def storeMerge (s : Store) (kwargs : Dict) : Store :=
  ⟨s.heap ++ [dictUpdate (currentDict s) kwargs], some s.heap.length⟩

/-- Modelled from the spec: the store's `replace(newMapping)` operation
("discards all prior keys, sets a wholly new mapping") — no replace
entry point exists under `src/`; the spec's wording is rendered as
binding a freshly allocated dict holding exactly `newMapping`. -/
def storeReplace (s : Store) (m : Dict) : Store :=
  ⟨s.heap ++ [m], some s.heap.length⟩

/-- Embedding of `clear_trace_context()` over the explicit heap (source lines
241-253): `trace_context.set(None)` — only the binding changes. -/
def storeClear (s : Store) : Store := ⟨s.heap, none⟩

/-- A mutation of the store, as enumerated by claim C9. -/
inductive StoreOp where
  | merge (u : Dict)
  | repl (m : Dict)
  | clr
  deriving DecidableEq, Repr

def applyOp (s : Store) : StoreOp → Store
  | .merge u => storeMerge s u
  | .repl m => storeReplace s m
  | .clr => storeClear s

def runOps (s : Store) (ops : List StoreOp) : Store := ops.foldl applyOp s

theorem applyOp_preserves (s : Store) (op : StoreOp) (a : Nat) (h : a < s.heap.length) :
    derefD (applyOp s op) a = derefD s a ∧ a < (applyOp s op).heap.length := by
  cases op with
  | merge u =>
    refine ⟨List.getD_append _ _ _ _ h, ?_⟩
    simp only [applyOp, storeMerge, List.length_append, List.length_cons,
      List.length_nil]
    omega
  | repl m =>
    refine ⟨List.getD_append _ _ _ _ h, ?_⟩
    simp only [applyOp, storeReplace, List.length_append, List.length_cons,
      List.length_nil]
    omega
  | clr => exact ⟨rfl, h⟩

theorem runOps_preserves (s : Store) (ops : List StoreOp) (a : Nat)
    (h : a < s.heap.length) : derefD (runOps s ops) a = derefD s a := by
  induction ops generalizing s with
  | nil => rfl
  | cons op t ih =>
    obtain ⟨h1, h2⟩ := applyOp_preserves s op a h
    calc derefD (runOps (applyOp s op) t) a = derefD (applyOp s op) a := ih _ h2
      _ = derefD s a := h1

/-- Claim C9: `get_trace_context` is total and returns a copy of the
current mapping — a freshly allocated dict (its address is in range)
holding the current task's mapping, the empty mapping when the binding is
unset — and no subsequent sequence of merge, replace or clear operations
ever changes the cell an earlier `get` returned. -/
theorem claim9_get_returns_copy (s : Store) (ops : List StoreOp) :
    (storeGet s).2 < (storeGet s).1.heap.length ∧
    derefD (storeGet s).1 (storeGet s).2 = currentDict s ∧
    derefD (storeGet (Store.mk s.heap none)).1 (storeGet (Store.mk s.heap none)).2 = [] ∧
    derefD (runOps (storeGet s).1 ops) (storeGet s).2 = currentDict s := by
  have hlen : (storeGet s).2 < (storeGet s).1.heap.length := by
    simp [storeGet]
  have hget : ∀ (s' : Store),
      derefD (storeGet s').1 (storeGet s').2 = currentDict s' := by
    intro s'
    simp [storeGet, derefD, List.getD_eq_getElem?_getD, List.getElem?_concat_length]
  refine ⟨hlen, hget s, ?_, ?_⟩
  · rw [hget (Store.mk s.heap none)]
    rfl
  · rw [runOps_preserves (storeGet s).1 ops (storeGet s).2 hlen, hget s]

/-- The two environment variables `configure_logging` consults for
`format="auto"` (source lines 171-179): `LOG_FORMAT` and `ENV`; `none`
models an unset variable. -/
structure Env where
  log_format : Option String
  env : Option String
  deriving DecidableEq, Repr

/-- The `"auto"` resolution of `configure_logging` (source lines
171-179): `os.getenv("LOG_FORMAT", "").lower() == "json"` or
`os.getenv("ENV", "development").lower() == "production"` selects
`"json"`, anything else `"human"`; a non-`"auto"` format is kept as
given. -/
def resolveFormat (e : Env) (format : String) : String :=
  if format = "auto" then
    if strLower (e.log_format.getD "") = "json"
        ∨ strLower (e.env.getD "development") = "production"
    then "json" else "human"
  else format

/-- Which formatter class `configure_logging` instantiates (source lines
182-185): `StructuredFormatter` for `"json"`, `HumanReadableFormatter`
for everything else. -/
inductive FormatterKind where
  | json
  | human
  deriving DecidableEq, Repr

def selectFormatter (format : String) : FormatterKind :=
  if format = "json" then .json else .human

/-- The level-name table of the logging backend, as consulted by
`Logger.setLevel` with a string argument (modelled collaborator:
`logging._nameToLevel`; an unknown name raises). -/
def levelNames : List (String × Nat) :=
  [("CRITICAL", 50), ("FATAL", 50), ("ERROR", 40), ("WARN", 30),
   ("WARNING", 30), ("INFO", 20), ("DEBUG", 10), ("NOTSET", 0)]

/-- Behaviour of `logging._checkLevel` on a string: the numeric level, or `none` for
an unknown name. -/
def checkLevel (s : String) : Option Nat :=
  match levelNames.find? (fun p => p.1 == s) with
  | some p => some p.2
  | none => none

/-- A valid severity-level string for `configure_logging`: accepted (after
the source's `level.upper()`) by the logging backend's name table. -/
def validLevel (lvl : String) : Bool := (checkLevel (strUpper lvl)).isSome

/-- The spec's `InvalidConfiguration` failure, realized in the source as
the `ValueError` that `root_logger.setLevel(level.upper())` raises on an
unknown level name (source line 195). -/
inductive ConfigError where
  | invalidConfiguration (level : String)
  deriving DecidableEq, Repr

/-- The root logger state `configure_logging` mutates: its handler list
(each handler carrying its formatter) and its severity threshold. -/
structure RootLogger where
  handlers : List FormatterKind
  level : Nat
  deriving DecidableEq, Repr

/-- Embedding of `configure_logging(level, format)` (source lines 141-195) as a state
transformer over the root logger, returning the new state and the
synchronously raised error, if any: resolve `"auto"` from the
environment, build the chosen formatter's handler, clear the previous
handlers, add the new handler, then `setLevel(level.upper())` — which
raises after the handler mutations have already happened. -/
def configure_logging (e : Env) (lvl format : String) (root : RootLogger) :
    RootLogger × Option ConfigError :=
  let formatter := selectFormatter (resolveFormat e format)
  let root1 : RootLogger := ⟨[], root.level⟩
  let root2 : RootLogger := ⟨root1.handlers ++ [formatter], root1.level⟩
  match checkLevel (strUpper lvl) with
  | some n => (⟨root2.handlers, n⟩, none)
  | none => (root2, some (.invalidConfiguration lvl))

/-- Claim C7 counterexample: with the format-override variable set to
`"JSON"` (which does not equal `"json"`) and the mode variable unset,
`configure_logging(format="auto")` nevertheless selects the JSON
formatter, because the source lowercases the variable before comparing. -/
theorem claim7_auto_counterexample :
    (configure_logging ⟨some "JSON", none⟩ "INFO" "auto" ⟨[], 0⟩).1.handlers
      = [FormatterKind.json] ∧
    (⟨some "JSON", none⟩ : Env).log_format ≠ some "json" ∧
    (⟨some "JSON", none⟩ : Env).env ≠ some "production" := by
  decide

/-- Claim C7 (amended): `configure_logging` with `format="auto"` installs
the JSON formatter if and only if the format-override variable (default
`""`) lowercases to `"json"` or the environment-mode variable (default
`"development"`) lowercases to `"production"`; in every other
environment state, including both variables unset, it installs the human
formatter. -/
theorem claim7_auto_selection_amended (e : Env) (lvl : String) (root : RootLogger) :
    (configure_logging e lvl "auto" root).1.handlers = [FormatterKind.json]
      ↔ (strLower (e.log_format.getD "") = "json"
          ∨ strLower (e.env.getD "development") = "production") := by
  by_cases h : strLower (e.log_format.getD "") = "json"
      ∨ strLower (e.env.getD "development") = "production" <;>
    cases hc : checkLevel (strUpper lvl) <;>
    simp [configure_logging, resolveFormat, selectFormatter, h, hc]

/-- Claim C8: `configure_logging` fails exactly when its level argument is
not a valid severity-level string, and then by surfacing an
`InvalidConfiguration` error synchronously to the caller; every valid
level string completes without error, whatever the environment, format
and prior state. -/
theorem claim8_configure_failure (e : Env) (lvl format : String) (root : RootLogger) :
    (configure_logging e lvl format root).2
      = if validLevel lvl then none
        else some (ConfigError.invalidConfiguration lvl) := by
  cases hc : checkLevel (strUpper lvl) <;>
    simp [configure_logging, validLevel, hc]

/-- Claim C10: when `configure_logging` is called with an invalid level,
the failed call has already removed the previous handlers and installed
the newly selected formatter's handler, while the previous severity
threshold is retained — the configuration change on error is partial,
not atomic. -/
theorem claim10_error_leaves_new_handler (e : Env) (lvl format : String)
    (root : RootLogger) (hbad : validLevel lvl = false) :
    (configure_logging e lvl format root).1.handlers
        = [selectFormatter (resolveFormat e format)] ∧
    (configure_logging e lvl format root).1.level = root.level ∧
    (configure_logging e lvl format root).2
        = some (ConfigError.invalidConfiguration lvl) := by
  have hc : checkLevel (strUpper lvl) = none := by
    cases hc : checkLevel (strUpper lvl)
    · rfl
    · simp [validLevel, hc] at hbad
  simp [configure_logging, hc]

/-- Witness for C10: reconfiguring from a JSON-handler state to the human
formatter with the invalid level `"BOGUS"` errors, yet leaves the human
handler installed and the old threshold 20 in place. -/
theorem claim10_error_leaves_new_handler_witness :
    validLevel "BOGUS" = false ∧
    ((configure_logging ⟨none, none⟩ "BOGUS" "human"
        ⟨[FormatterKind.json], 20⟩).1.handlers
      = [selectFormatter (resolveFormat ⟨none, none⟩ "human")] ∧
    (configure_logging ⟨none, none⟩ "BOGUS" "human"
        ⟨[FormatterKind.json], 20⟩).1.level
      = (RootLogger.mk [FormatterKind.json] 20).level ∧
    (configure_logging ⟨none, none⟩ "BOGUS" "human"
        ⟨[FormatterKind.json], 20⟩).2
      = some (ConfigError.invalidConfiguration "BOGUS")) :=
  ⟨by decide,
    claim10_error_leaves_new_handler ⟨none, none⟩ "BOGUS" "human"
      ⟨[FormatterKind.json], 20⟩ (by decide)⟩

end HiveLogging
